import Mathlib

/-!
Shallow embedding of the user service of realworld-aws-lambda-dynamodb-go
(src/service/UserService.go), together with theorems about the behaviour of
its operations.  Go byte slices are modelled as `Option (List Nat)` (a `nil`
slice is `none`), DynamoDB items as a small inductive of marshalled records,
and store interaction is made explicit: each operation returns its result
together with the list of store calls it issued, and the transactional write
client is passed in as a function from a transaction to an optional error.
-/

namespace UserService

/-- The user record, `model.User` in the Go source: username (primary key),
email, password hash (a Go byte slice, possibly nil), image and bio. -/
structure User where
  Username : String
  Email : String
  PasswordHash : Option (List Nat)
  Image : String
  Bio : String
deriving DecidableEq, Repr

/-- The Go zero value of `model.User`: empty strings and a nil byte slice. -/
def zeroUser : User :=
  { Username := "", Email := "", PasswordHash := none, Image := "", Bio := "" }

instance : Inhabited User := ⟨zeroUser⟩

/-- The identity-projection record, `model.EmailUser` in the Go source:
email (primary key) mapped to username. -/
structure EmailUser where
  Email : String
  Username : String
deriving DecidableEq, Repr

/-- Errors of the service layer: `util.NewInputError(field, message)` values,
the store raising a transaction-precondition failure, and other store errors. -/
inductive Err where
  | inputError (field : String) (message : String)
  | constraintViolation
  | storeError (message : String)
deriving DecidableEq, Repr

/-- Values carried by a `SET` instruction of a DynamoDB update expression. -/
inductive Val where
  | str (s : String)
  | bytes (b : List Nat)
deriving DecidableEq, Repr

/-- One field-level instruction of an update expression, as accumulated by
`expression.UpdateBuilder` in `buildUserUpdateExpression`. -/
inductive UpdateInstr where
  | set (field : String) (value : Val)
  | remove (field : String)
deriving DecidableEq, Repr

/-- The attribute name an instruction is about. -/
def UpdateInstr.field : UpdateInstr → String
  | .set f _ => f
  | .remove f => f

/-- A marshalled DynamoDB item (`dynamodbattribute.MarshalMap` output): either
a marshalled user record or a marshalled projection record. -/
inductive Item where
  | user (u : User)
  | emailUser (e : EmailUser)
deriving DecidableEq, Repr

/-- One element of `TransactItems`: a conditional Put, Delete or Update, with
its table, payload and condition expression, as in the Go source. -/
inductive TransactWriteItem where
  | put (tableName : String) (item : Item) (conditionExpression : String)
  | delete (tableName : String) (key : String × String)
      (conditionExpression : String)
  | update (tableName : String) (key : String × String)
      (conditionExpression : String) (updateExpression : List UpdateInstr)
deriving DecidableEq, Repr

/-- The configured user-table name (`UserTableName.Get()`), a value read once
from the environment; its concrete value is irrelevant to the claims. -/
def UserTableName : String := "realworld-user"

/-- The configured projection-table name (`EmailUserTableName.Get()`). -/
def EmailUserTableName : String := "realworld-email-user"

/-- Embedding of `StringKey(name, value)`: the single-attribute key map used for gets,
deletes and updates. -/
def StringKey (name value : String) : String × String := (name, value)

/-- Go `bytes.Equal` on byte slices: same bytes, a nil slice comparing equal
to an empty one. -/
def bytesEqual (a b : Option (List Nat)) : Bool := a.getD [] == b.getD []

/-- Modelled from the spec: `model.User.Validate` is not under src/; section 6
of the spec says field-level non-blank validators run before any store write.
The theorems below only ever assume that validation succeeded, so the exact
set of checks is immaterial. -/
def User.Validate (u : User) : Option Err :=
  if u.Username = "" then some (.inputError "username" "can\x27t be blank")
  else if u.Email = "" then some (.inputError "email" "can\x27t be blank")
  else none

/-- Embedding of `PutUser`: validate, then issue one transaction with two conditional Puts
(user record if the username does not exist, projection record if the email
does not exist).  `transact` is the store client
(`DynamoDB().TransactWriteItems`); `none` means the call succeeded.  The
second component lists the transactions issued. -/
def PutUser (transact : List TransactWriteItem → Option Err) (user : User) :
    Except Err Unit × List (List TransactWriteItem) :=
  match user.Validate with
  | some err => (.error err, [])
  | none =>
    let emailUser : EmailUser := { Email := user.Email, Username := user.Username }
    let transaction : List TransactWriteItem :=
      [ .put UserTableName (.user user) "attribute_not_exists(Username)",
        .put EmailUserTableName (.emailUser emailUser) "attribute_not_exists(Email)" ]
    let result : Except Err Unit :=
      match transact transaction with
      | some err => .error err
      | none => .ok ()
    (result, [transaction])

/-- The email clause of `buildUserUpdateExpression`: `SET Email` when the
email changed. -/
def emailUpdate (oldUser newUser : User) : List UpdateInstr :=
  if oldUser.Email ≠ newUser.Email
  then [.set "Email" (.str newUser.Email)] else []

/-- The password clause of `buildUserUpdateExpression`: `SET PasswordHash`
when the new hash is non-nil and differs from the old under `bytes.Equal`. -/
def passwordHashUpdate (oldUser newUser : User) : List UpdateInstr :=
  if newUser.PasswordHash ≠ none ∧
      bytesEqual oldUser.PasswordHash newUser.PasswordHash = false
  then [.set "PasswordHash" (.bytes (newUser.PasswordHash.getD []))] else []

/-- The image clause of `buildUserUpdateExpression`: on change, `SET` when the
new value is non-empty, `REMOVE` when it is empty. -/
def imageUpdate (oldUser newUser : User) : List UpdateInstr :=
  if oldUser.Image ≠ newUser.Image then
    if newUser.Image ≠ "" then [.set "Image" (.str newUser.Image)]
    else [.remove "Image"]
  else []

/-- The bio clause of `buildUserUpdateExpression`: on change, `SET` when the
new value is non-empty, `REMOVE` when it is empty. -/
def bioUpdate (oldUser newUser : User) : List UpdateInstr :=
  if oldUser.Bio ≠ newUser.Bio then
    if newUser.Bio ≠ "" then [.set "Bio" (.str newUser.Bio)]
    else [.remove "Bio"]
  else []

/-- Embedding of `buildUserUpdateExpression`: the four conditional clauses accumulated into
the update builder, in source order (Email, PasswordHash, Image, Bio).  The
empty list models the `IsUpdateBuilderEmpty` branch returning the zero
`expression.Expression`, whose `Update()` is nil. -/
def buildUserUpdateExpression (oldUser newUser : User) : List UpdateInstr :=
  emailUpdate oldUser newUser ++ passwordHashUpdate oldUser newUser ++
    imageUpdate oldUser newUser ++ bioUpdate oldUser newUser

/-- Embedding of `UpdateUser`: validate the new record; when the email changed, stage a
conditional Put of the new projection and a conditional Delete of the old one;
build the field diff; if the diff is empty return success without calling the
store; otherwise append the conditional user-record Update and issue the whole
list as one transaction. -/
def UpdateUser (transact : List TransactWriteItem → Option Err)
    (oldUser newUser : User) :
    Except Err Unit × List (List TransactWriteItem) :=
  match newUser.Validate with
  | some err => (.error err, [])
  | none =>
    let emailUser : EmailUser :=
      { Email := newUser.Email, Username := newUser.Username }
    let transactItems : List TransactWriteItem :=
      if oldUser.Email ≠ newUser.Email then
        [ .put EmailUserTableName (.emailUser emailUser)
            "attribute_not_exists(Email)",
          .delete EmailUserTableName (StringKey "Email" oldUser.Email)
            "attribute_exists(Email)" ]
      else []
    let expr := buildUserUpdateExpression oldUser newUser
    if expr = [] then (.ok (), [])
    else
      let transactItems := transactItems ++
        [ .update UserTableName (StringKey "Username" oldUser.Username)
            "attribute_exists(Username)" expr ]
      let result : Except Err Unit :=
        match transact transactItems with
        | some err => .error err
        | none => .ok ()
      (result, [transactItems])

/-- The durable store as seen by the read paths: the projection table maps an
email to a username, the user table maps a username to a user record.
`getByKey` of the store client returns the item and a found flag; absence is
not an error. -/
structure Store where
  emailUser : String → Option String
  user : String → Option User

/-- A single-item read issued against the store, for call accounting. -/
inductive GetCall where
  | emailUserGet (email : String)
  | userGet (username : String)
deriving DecidableEq, Repr

/-- Embedding of `GetUsernameByEmail`: one projection get; a missing record becomes
`InputError("email", "not found")`. -/
def GetUsernameByEmail (store : Store) (email : String) :
    Except Err String × List GetCall :=
  match store.emailUser email with
  | none => (.error (.inputError "email" "not found"), [.emailUserGet email])
  | some username => (.ok username, [.emailUserGet email])

/-- Embedding of `GetUserByUsername`: one user-record get; a missing record becomes
`InputError("username", "not found")`. -/
def GetUserByUsername (store : Store) (username : String) :
    Except Err User × List GetCall :=
  match store.user username with
  | none => (.error (.inputError "username" "not found"), [.userGet username])
  | some user => (.ok user, [.userGet username])

/-- Embedding of `GetUserByEmail`: reject a blank email before any store call, resolve the
email through the projection, treat an empty stored username as not found,
then fetch the user record by username. -/
def GetUserByEmail (store : Store) (email : String) :
    Except Err User × List GetCall :=
  if email = "" then
    (.error (.inputError "email" "can\x27t be blank"), [])
  else
    match GetUsernameByEmail store email with
    | (.error err, calls) => (.error err, calls)
    | (.ok username, calls) =>
      if username = "" then
        (.error (.inputError "email" "not found"), calls)
      else
        match GetUserByUsername store username with
        | (.error err, calls2) => (.error err, calls ++ calls2)
        | (.ok user, calls2) => (.ok user, calls ++ calls2)

/-- Inserting an unmarshalled item into the Go map `usersByUsername`, keyed by
the Username attribute of the item; a later insert overwrites an earlier one,
as in a Go map. -/
def insertByUsername (m : String → Option User) (user : User) :
    String → Option User :=
  fun name => if name = user.Username then some user else m name

/-- Modelled from the spec: `BatchGetItems` is not under src/; section 4.1 of
the spec says a batched get returns the items found for the requested keys, in
no guaranteed order, paging internally.  Here it returns the records found for
the deduplicated usernames; the caller re-keys them by identity. -/
def BatchGetItems (store : Store) (usernames : List String) : List User :=
  usernames.filterMap store.user

/-- Embedding of `GetUserListByUsername`: empty input short-circuits with no store call;
otherwise the input is deduplicated into the batch-get key list, the returned
items are folded into a map keyed by username, and the result is assembled in
input order with the Go zero value for any username not in the map.  The
second component lists the key lists of the batch calls issued. -/
def GetUserListByUsername (store : Store) (usernames : List String) :
    List User × List (List (String × String)) :=
  if usernames = [] then ([], [])
  else
    let usernameSet := usernames.dedup
    let keys := usernameSet.map (fun username => StringKey "Username" username)
    let items := BatchGetItems store usernameSet
    let usersByUsername :=
      items.foldl insertByUsername (fun _ => none)
    (usernames.map (fun username => (usersByUsername username).getD zeroUser),
      [keys])

/-! Concrete records and stores used to instantiate the theorems below. -/

/-- A valid sample user record. -/
def sampleUser : User :=
  { Username := "alice", Email := "alice@x.io", PasswordHash := some [1, 2, 3],
    Image := "img", Bio := "bio" }

/-- The sample user with a changed email and bio. -/
def sampleUserNewEmail : User :=
  { sampleUser with Email := "alice2@x.io", Bio := "bio2" }

/-- An old record whose password hash is a non-empty byte slice. -/
def pwOldUser : User :=
  { Username := "pat", Email := "pat@x.io", PasswordHash := some [7],
    Image := "", Bio := "" }

/-- The same record with the password hash replaced by a non-nil but empty
byte slice. -/
def pwNewUser : User := { pwOldUser with PasswordHash := some [] }

/-- A store whose projection maps one email to a username that has no user
record (a dangling reference), and which holds no user records at all. -/
def danglingStore : Store :=
  { emailUser := fun email => if email = "gone@x.io" then some "ghost" else none,
    user := fun _ => none }

/-- A store holding exactly one user record, for the batch-get theorems. -/
def batchStore : Store :=
  { emailUser := fun _ => none,
    user := fun username => if username = "alice" then some sampleUser else none }

/-! Helper lemmas shared by the theorems below. -/

lemma emailUpdate_of_ne {oldUser newUser : User}
    (h : oldUser.Email ≠ newUser.Email) :
    emailUpdate oldUser newUser = [.set "Email" (.str newUser.Email)] := by
  simp [emailUpdate, h]

lemma buildUserUpdateExpression_ne_nil {oldUser newUser : User}
    (h : oldUser.Email ≠ newUser.Email) :
    buildUserUpdateExpression oldUser newUser ≠ [] := by
  simp [buildUserUpdateExpression, emailUpdate_of_ne h]

lemma updateUser_calls_of_email_ne
    (transact : List TransactWriteItem → Option Err) (oldUser newUser : User)
    (hv : newUser.Validate = none) (hne : oldUser.Email ≠ newUser.Email) :
    (UpdateUser transact oldUser newUser).2 =
      [[ .put EmailUserTableName
           (.emailUser { Email := newUser.Email, Username := newUser.Username })
           "attribute_not_exists(Email)",
         .delete EmailUserTableName (StringKey "Email" oldUser.Email)
           "attribute_exists(Email)",
         .update UserTableName (StringKey "Username" oldUser.Username)
           "attribute_exists(Username)"
           (buildUserUpdateExpression oldUser newUser) ]] := by
  have hb := buildUserUpdateExpression_ne_nil hne
  simp [UpdateUser, hv, hne, hb]

/-- Claim C9: for every user that passes validation, `PutUser` issues exactly
one transaction, holding exactly two Puts: the user record conditioned on the
username not existing and the projection record conditioned on the email not
existing; no other write is issued. -/
theorem putUser_single_transaction_two_puts
    (transact : List TransactWriteItem → Option Err) (user : User)
    (hv : user.Validate = none) :
    (PutUser transact user).2 =
      [[ .put UserTableName (.user user) "attribute_not_exists(Username)",
         .put EmailUserTableName
           (.emailUser { Email := user.Email, Username := user.Username })
           "attribute_not_exists(Email)" ]] := by
  simp [PutUser, hv]

/-- Witness for C9 at a concrete valid user and a concrete store client. -/
theorem putUser_single_transaction_two_puts_witness :
    (PutUser (fun _ => none) sampleUser).2 =
      [[ .put UserTableName (.user sampleUser) "attribute_not_exists(Username)",
         .put EmailUserTableName
           (.emailUser { Email := "alice@x.io", Username := "alice" })
           "attribute_not_exists(Email)" ]] :=
  putUser_single_transaction_two_puts (fun _ => none) sampleUser (by decide)

/-- Claim C3 is a code bug: when the transaction fails with a constraint
violation, `PutUser` returns the raw store error unchanged instead of the
generic already-taken `InputError` that its own TODO comment (and the spec)
call for.  Evaluated here at a concrete valid user. -/
theorem putUser_propagates_raw_constraint_violation :
    (PutUser (fun _ => some Err.constraintViolation) sampleUser).1 =
      Except.error Err.constraintViolation := by
  simp [PutUser, sampleUser, User.Validate]

/-- Claim C1: when the email changed (and the new record validates), the
whole update is one single transaction holding the conditional Put of the new
projection, the conditional Delete of the old projection, and the user-record
field update — never split across calls. -/
theorem updateUser_email_change_single_transaction
    (transact : List TransactWriteItem → Option Err) (oldUser newUser : User)
    (hv : newUser.Validate = none) (hne : oldUser.Email ≠ newUser.Email) :
    (UpdateUser transact oldUser newUser).2 =
      [[ .put EmailUserTableName
           (.emailUser { Email := newUser.Email, Username := newUser.Username })
           "attribute_not_exists(Email)",
         .delete EmailUserTableName (StringKey "Email" oldUser.Email)
           "attribute_exists(Email)",
         .update UserTableName (StringKey "Username" oldUser.Username)
           "attribute_exists(Username)"
           (buildUserUpdateExpression oldUser newUser) ]] :=
  updateUser_calls_of_email_ne transact oldUser newUser hv hne

/-- Witness for C1 at a concrete pair of users differing in email. -/
theorem updateUser_email_change_single_transaction_witness :
    (UpdateUser (fun _ => none) sampleUser sampleUserNewEmail).2 =
      [[ .put EmailUserTableName
           (.emailUser { Email := "alice2@x.io", Username := "alice" })
           "attribute_not_exists(Email)",
         .delete EmailUserTableName (StringKey "Email" "alice@x.io")
           "attribute_exists(Email)",
         .update UserTableName (StringKey "Username" "alice")
           "attribute_exists(Username)"
           (buildUserUpdateExpression sampleUser sampleUserNewEmail) ]] :=
  updateUser_email_change_single_transaction (fun _ => none)
    sampleUser sampleUserNewEmail (by decide) (by decide)

/-- Claim C4: when the email changed, the diff contains the email `SET` and is
therefore non-empty, and whenever the new record also validates the
user-record update branch fires inside the issued transaction — the early
no-op return is never taken. -/
theorem email_change_forces_nonempty_diff (oldUser newUser : User)
    (hne : oldUser.Email ≠ newUser.Email) :
    UpdateInstr.set "Email" (.str newUser.Email) ∈
        buildUserUpdateExpression oldUser newUser ∧
    buildUserUpdateExpression oldUser newUser ≠ [] ∧
    ∀ transact : List TransactWriteItem → Option Err,
      newUser.Validate = none →
      ∃ tx, (UpdateUser transact oldUser newUser).2 = [tx] ∧
        TransactWriteItem.update UserTableName
          (StringKey "Username" oldUser.Username) "attribute_exists(Username)"
          (buildUserUpdateExpression oldUser newUser) ∈ tx := by
  refine ⟨?_, buildUserUpdateExpression_ne_nil hne, ?_⟩
  · simp [buildUserUpdateExpression, emailUpdate_of_ne hne]
  · intro transact hv
    refine ⟨_, updateUser_calls_of_email_ne transact oldUser newUser hv hne, ?_⟩
    simp

lemma field_of_mem_emailUpdate {oldUser newUser : User} {i : UpdateInstr}
    (h : i ∈ emailUpdate oldUser newUser) : i.field = "Email" := by
  unfold emailUpdate at h
  split at h <;> simp_all [UpdateInstr.field]

lemma field_of_mem_passwordHashUpdate {oldUser newUser : User} {i : UpdateInstr}
    (h : i ∈ passwordHashUpdate oldUser newUser) : i.field = "PasswordHash" := by
  unfold passwordHashUpdate at h
  split at h <;> simp_all [UpdateInstr.field]

lemma field_of_mem_imageUpdate {oldUser newUser : User} {i : UpdateInstr}
    (h : i ∈ imageUpdate oldUser newUser) : i.field = "Image" := by
  unfold imageUpdate at h
  split at h
  · split at h <;> simp_all [UpdateInstr.field]
  · simp_all

lemma field_of_mem_bioUpdate {oldUser newUser : User} {i : UpdateInstr}
    (h : i ∈ bioUpdate oldUser newUser) : i.field = "Bio" := by
  unfold bioUpdate at h
  split at h
  · split at h <;> simp_all [UpdateInstr.field]
  · simp_all

/-- Witness for C4 at a concrete pair of users differing in email. -/
theorem email_change_forces_nonempty_diff_witness :
    UpdateInstr.set "Email" (.str "alice2@x.io") ∈
      buildUserUpdateExpression sampleUser sampleUserNewEmail ∧
    buildUserUpdateExpression sampleUser sampleUserNewEmail ≠ [] ∧
    ∃ tx, (UpdateUser (fun _ => none) sampleUser sampleUserNewEmail).2 = [tx] ∧
      TransactWriteItem.update UserTableName (StringKey "Username" "alice")
        "attribute_exists(Username)"
        (buildUserUpdateExpression sampleUser sampleUserNewEmail) ∈ tx := by
  obtain ⟨h1, h2, h3⟩ :=
    email_change_forces_nonempty_diff sampleUser sampleUserNewEmail (by decide)
  exact ⟨h1, h2, h3 (fun _ => none) (by decide)⟩

/-- The instructions of the diff that concern a given field are exactly the
clause of the engine for that field. -/
lemma filter_buildUserUpdateExpression (oldUser newUser : User) :
    ((buildUserUpdateExpression oldUser newUser).filter
        (fun i => i.field == "PasswordHash") =
      passwordHashUpdate oldUser newUser) ∧
    ((buildUserUpdateExpression oldUser newUser).filter
        (fun i => i.field == "Image") = imageUpdate oldUser newUser) ∧
    ((buildUserUpdateExpression oldUser newUser).filter
        (fun i => i.field == "Bio") = bioUpdate oldUser newUser) := by
  refine ⟨?_, ?_, ?_⟩ <;>
    simp only [buildUserUpdateExpression, List.filter_append] <;>
    rw [List.filter_eq_nil_iff.mpr
        (fun i hi => by simp [field_of_mem_emailUpdate hi])]
  · rw [List.filter_eq_self.mpr
        (fun i hi => by simp [field_of_mem_passwordHashUpdate hi]),
      List.filter_eq_nil_iff.mpr
        (fun i hi => by simp [field_of_mem_imageUpdate hi]),
      List.filter_eq_nil_iff.mpr
        (fun i hi => by simp [field_of_mem_bioUpdate hi])]
    simp
  · rw [List.filter_eq_nil_iff.mpr
        (fun i hi => by simp [field_of_mem_passwordHashUpdate hi]),
      List.filter_eq_self.mpr
        (fun i hi => by simp [field_of_mem_imageUpdate hi]),
      List.filter_eq_nil_iff.mpr
        (fun i hi => by simp [field_of_mem_bioUpdate hi])]
    simp
  · rw [List.filter_eq_nil_iff.mpr
        (fun i hi => by simp [field_of_mem_passwordHashUpdate hi]),
      List.filter_eq_nil_iff.mpr
        (fun i hi => by simp [field_of_mem_imageUpdate hi]),
      List.filter_eq_self.mpr
        (fun i hi => by simp [field_of_mem_bioUpdate hi])]
    simp

/-- Claim C5: when the new record validates and no field differs under the
engine policies (same email, password hash absent or byte-equal, same image,
same bio), `UpdateUser` issues zero store writes and returns success. -/
theorem updateUser_noop_zero_writes
    (transact : List TransactWriteItem → Option Err) (oldUser newUser : User)
    (hv : newUser.Validate = none)
    (he : oldUser.Email = newUser.Email)
    (hp : newUser.PasswordHash = none ∨
      bytesEqual oldUser.PasswordHash newUser.PasswordHash = true)
    (hi : oldUser.Image = newUser.Image)
    (hb : oldUser.Bio = newUser.Bio) :
    UpdateUser transact oldUser newUser = (Except.ok (), []) := by
  have hpw : passwordHashUpdate oldUser newUser = [] := by
    rcases hp with h | h <;> simp [passwordHashUpdate, h]
  have hbuild : buildUserUpdateExpression oldUser newUser = [] := by
    simp [buildUserUpdateExpression, emailUpdate, imageUpdate, bioUpdate,
      he, hi, hb, hpw]
  simp [UpdateUser, hv, hbuild]

/-- Witness for C5: an unchanged record produces success and no store call. -/
theorem updateUser_noop_zero_writes_witness :
    UpdateUser (fun _ => some Err.constraintViolation) sampleUser sampleUser =
      (Except.ok (), []) :=
  updateUser_noop_zero_writes (fun _ => some Err.constraintViolation)
    sampleUser sampleUser (by decide) rfl (by decide) rfl rfl

/-- Claim C7 as stated is false at this input: the new password hash is a
present-but-empty byte slice (`some []`, a non-nil empty Go slice) while the
old one is non-empty, and the engine emits `SET PasswordHash` of the empty
value even though the new value is not non-empty. -/
theorem passwordHash_empty_slice_still_sets_cx :
    pwNewUser.PasswordHash = some [] ∧
    buildUserUpdateExpression pwOldUser pwNewUser =
      [UpdateInstr.set "PasswordHash" (Val.bytes [])] := by
  decide

/-- Claim C7 amended: the diff holds `SET PasswordHash newHash` exactly when
the new hash is set (non-nil) and differs from the old one under Go
`bytes.Equal` (nil comparing equal to empty) — even when the new hash is a
set-but-empty slice — and it never holds a `REMOVE` of the credential. -/
theorem passwordHash_update_policy (oldUser newUser : User) :
    ((buildUserUpdateExpression oldUser newUser).filter
        (fun i => i.field == "PasswordHash") =
      if newUser.PasswordHash ≠ none ∧
          bytesEqual oldUser.PasswordHash newUser.PasswordHash = false
      then [UpdateInstr.set "PasswordHash"
        (Val.bytes (newUser.PasswordHash.getD []))]
      else []) ∧
    UpdateInstr.remove "PasswordHash" ∉
      buildUserUpdateExpression oldUser newUser := by
  constructor
  · exact (filter_buildUserUpdateExpression oldUser newUser).1
  · intro hmem
    have hf := (filter_buildUserUpdateExpression oldUser newUser).1
    have : UpdateInstr.remove "PasswordHash" ∈
        passwordHashUpdate oldUser newUser := by
      rw [← hf]
      exact List.mem_filter.mpr ⟨hmem, by simp [UpdateInstr.field]⟩
    unfold passwordHashUpdate at this
    split at this <;> simp_all

/-- Claim C8: for each of the optional fields image and bio, the diff holds
exactly one `SET field = newValue` when the field changed to a non-empty
value, exactly one `REMOVE field` when it changed to the empty string, and no
instruction at all for that field when it is unchanged. -/
theorem image_bio_update_policy (oldUser newUser : User) :
    ((buildUserUpdateExpression oldUser newUser).filter
        (fun i => i.field == "Image") =
      if oldUser.Image ≠ newUser.Image then
        if newUser.Image ≠ "" then [UpdateInstr.set "Image" (Val.str newUser.Image)]
        else [UpdateInstr.remove "Image"]
      else []) ∧
    ((buildUserUpdateExpression oldUser newUser).filter
        (fun i => i.field == "Bio") =
      if oldUser.Bio ≠ newUser.Bio then
        if newUser.Bio ≠ "" then [UpdateInstr.set "Bio" (Val.str newUser.Bio)]
        else [UpdateInstr.remove "Bio"]
      else []) :=
  ⟨(filter_buildUserUpdateExpression oldUser newUser).2.1,
   (filter_buildUserUpdateExpression oldUser newUser).2.2⟩

/-- Claim C2 as stated is false at this input: the projection maps
gone@x.io to the username ghost, which has no user record (a dangling
reference), and `GetUserByEmail` surfaces this as the not-found
`InputError("username", "not found")` — a not-found error, not a distinct
data-integrity failure. -/
theorem getUserByEmail_dangling_cx :
    (GetUserByEmail danglingStore "gone@x.io").1 =
      Except.error (Err.inputError "username" "not found") := by
  simp [GetUserByEmail, GetUsernameByEmail, GetUserByUsername, danglingStore]

/-- Claim C2 amended: for a non-blank email, an unregistered email fails with
the projection lookup error `InputError("email", "not found")`, while a
projection entry pointing to a non-empty username with no user record fails
with `InputError("username", "not found")` — a different field than the
unregistered case, so the dangling reference is distinguishable, but still a
not-found `InputError` rather than a distinct data-integrity failure. -/
theorem getUserByEmail_not_found_cases (store : Store) (email : String)
    (hne : email ≠ "") :
    (store.emailUser email = none →
      GetUserByEmail store email =
        (Except.error (Err.inputError "email" "not found"),
         [GetCall.emailUserGet email])) ∧
    (∀ username, store.emailUser email = some username → username ≠ "" →
      store.user username = none →
      GetUserByEmail store email =
        (Except.error (Err.inputError "username" "not found"),
         [GetCall.emailUserGet email, GetCall.userGet username])) := by
  constructor
  · intro h
    simp [GetUserByEmail, GetUsernameByEmail, hne, h]
  · intro username h hu hnone
    simp [GetUserByEmail, GetUsernameByEmail, GetUserByUsername,
      hne, h, hu, hnone]

/-- Witness for the amended C2, at a concrete store exhibiting both an
unregistered email and a dangling projection entry. -/
theorem getUserByEmail_not_found_cases_witness :
    GetUserByEmail danglingStore "missing@x.io" =
      (Except.error (Err.inputError "email" "not found"),
       [GetCall.emailUserGet "missing@x.io"]) ∧
    GetUserByEmail danglingStore "gone@x.io" =
      (Except.error (Err.inputError "username" "not found"),
       [GetCall.emailUserGet "gone@x.io", GetCall.userGet "ghost"]) :=
  ⟨(getUserByEmail_not_found_cases danglingStore "missing@x.io"
      (by decide)).1 (by decide),
   (getUserByEmail_not_found_cases danglingStore "gone@x.io"
      (by decide)).2 "ghost" (by decide) (by decide) rfl⟩

/-- Claim C10: for the blank email, `GetUserByEmail` fails with
`InputError("email", "cannot be blank")` (the Go message uses an apostrophe)
and issues no store call at all. -/
theorem getUserByEmail_blank_email_no_lookup (store : Store) :
    GetUserByEmail store "" =
      (Except.error (Err.inputError "email" "can\x27t be blank"), []) := by
  simp [GetUserByEmail]

/-- Looking a name up in the map folded from the batch-get items yields the
user record of that name exactly when the store holds one and the name was
requested. -/
lemma foldl_insertByUsername_lookup (store : Store)
    (hwf : ∀ u usr, store.user u = some usr → usr.Username = u) :
    ∀ (L : List String) (m : String → Option User) (name : String),
      (L.filterMap store.user).foldl insertByUsername m name =
        if (store.user name).isSome = true ∧ name ∈ L then store.user name
        else m name := by
  intro L
  induction L with
  | nil => intro m name; simp
  | cons a L ih =>
    intro m name
    rw [List.filterMap_cons]
    cases ha : store.user a with
    | none =>
      rw [ih m name]
      by_cases hn : name = a
      · subst hn; simp [ha]
      · simp [List.mem_cons, hn]
    | some usr =>
      have husr : usr.Username = a := hwf a usr ha
      rw [List.foldl_cons, ih (insertByUsername m usr) name]
      by_cases hn : name = a
      · subst hn
        simp [ha, insertByUsername, husr]
      · simp [List.mem_cons, hn, insertByUsername, husr]

/-- Claim C6: `GetUserListByUsername` returns one entry per input element in
input order (the record the store holds for that username, or the Go zero
value when absent); empty input produces an empty result with no store call;
non-empty input issues exactly one batch call whose key list is the
deduplicated input. -/
theorem getUserListByUsername_dedup_order (store : Store)
    (usernames : List String)
    (hwf : ∀ u usr, store.user u = some usr → usr.Username = u) :
    (GetUserListByUsername store usernames).1 =
        usernames.map (fun u => (store.user u).getD zeroUser) ∧
    (usernames = [] → GetUserListByUsername store usernames = ([], [])) ∧
    (usernames ≠ [] →
      (GetUserListByUsername store usernames).2 =
        [usernames.dedup.map (fun u => StringKey "Username" u)] ∧
      usernames.dedup.Nodup ∧
      ∀ u, u ∈ usernames.dedup ↔ u ∈ usernames) := by
  refine ⟨?_, ?_, ?_⟩
  · by_cases h : usernames = []
    · subst h; simp [GetUserListByUsername]
    · simp only [GetUserListByUsername, if_neg h, BatchGetItems]
      apply List.map_congr_left
      intro u hu
      rw [foldl_insertByUsername_lookup store hwf]
      have hd : u ∈ usernames.dedup := List.mem_dedup.mpr hu
      cases hs : store.user u with
      | none => simp [hs, hd]
      | some usr => simp [hs, hd]
  · intro h; subst h; simp [GetUserListByUsername]
  · intro h
    exact ⟨by simp only [GetUserListByUsername, if_neg h],
      List.nodup_dedup usernames, fun u => List.mem_dedup⟩

/-- Witness for C6 on the input with a duplicate and a missing username. -/
theorem getUserListByUsername_dedup_order_witness :
    (GetUserListByUsername batchStore ["alice", "alice", "bob"]).1 =
      [sampleUser, sampleUser, zeroUser] ∧
    (GetUserListByUsername batchStore ["alice", "alice", "bob"]).2 =
      [[StringKey "Username" "alice", StringKey "Username" "bob"]] := by
  have hwf : ∀ u usr, batchStore.user u = some usr → usr.Username = u := by
    intro u usr h
    by_cases hu : u = "alice"
    · subst hu
      have h2 : sampleUser = usr := by simpa [batchStore] using h
      rw [← h2]
      decide
    · exfalso
      simp [batchStore, hu] at h
  constructor
  · rw [(getUserListByUsername_dedup_order batchStore
      ["alice", "alice", "bob"] hwf).1]
    decide
  · rw [((getUserListByUsername_dedup_order batchStore
      ["alice", "alice", "bob"] hwf).2.2 (by decide)).1]
    decide

end UserService
